import Mathlib

/-!
# UDP session handling of outline-go-tun2socks

A shallow embedding of `shadowsocks/udp.go` (the `udpHandler` with its
`Connect`, `handleDownstreamUDP`, `ReceiveTo` and `Close` methods) and of the
argument validation of `outline/apple/tun2socks.go`
(`ConnectShadowsocksTunnel`).

The handler is a record holding the Go fields `timeout` and `conns`.  Calls
into collaborators (the Shadowsocks client, the proxy socket, the virtual
connection, the buffer pool, the clock, the mutex) are recorded, in program
order, in a ghost `trace`; whatever such a call returns is an argument of the
embedded function.
-/

namespace shadowsocks

/-- Contents of a Go byte slice. -/
abbrev Bytes := List (Fin 256)

/-- Resolved UDP endpoint, the Go type net.UDPAddr reduced to address bytes and port. -/
structure UDPAddr where
  ip : List Nat
  port : Nat
  deriving DecidableEq, Repr

/-- Virtual connection of the packet engine (core.UDPConn): an identity used as
map key, together with what its LocalAddr method reports. -/
structure UDPConn where
  id : Nat
  localAddr : UDPAddr
  deriving DecidableEq, Repr

/-- Proxy socket (net.PacketConn) handed out by the client, known by its identity. -/
abbrev PacketConn := Nat

/-- Error value produced by a collaborator (client, socket, virtual connection,
address parser), known by its identity. -/
abbrev ExtError := Nat

/-- Error values a handler method returns.  The first is the one built in
ReceiveTo by fmt.Errorf("connection %v->%v does not exist", conn.LocalAddr(), addr),
with its two format arguments; the second is an error value of a collaborator
passed on unchanged. -/
inductive Error where
  | doesNotExist (localAddr : UDPAddr) (addr : UDPAddr)
  | external (err : ExtError)
  deriving DecidableEq, Repr

/-- Calls made by the handler on its collaborators. -/
inductive Event where
  | listenUDP
  | lock
  | unlock
  | goHandleDownstreamUDP (conn : UDPConn) (proxyConn : PacketConn)
  | newBytes
  | freeBytes
  | setDeadline (proxyConn : PacketConn) (t : Int)
  | readFrom (proxyConn : PacketConn)
  | resolveUDPAddr (s : String)
  | writeFrom (conn : UDPConn) (data : Bytes) (addr : UDPAddr)
  | localAddr (conn : UDPConn)
  | writeTo (proxyConn : PacketConn) (data : Bytes) (addr : UDPAddr)
  | connClose (conn : UDPConn)
  | proxyClose (proxyConn : PacketConn)
  deriving DecidableEq, Repr

/-- Lookup in the Go map h.conns. -/
def mapGet : List (UDPConn × PacketConn) → UDPConn → Option PacketConn
  | [], _ => none
  | (k, v) :: m, conn => if k = conn then some v else mapGet m conn

/-- Assignment h.conns[conn] = proxyConn: the key keeps a single entry. -/
def mapSet (m : List (UDPConn × PacketConn)) (conn : UDPConn) (proxyConn : PacketConn) :
    List (UDPConn × PacketConn) :=
  (conn, proxyConn) :: m.filter (fun e => !decide (e.1 = conn))

/-- The handler: Go fields timeout and conns, and the ghost trace of calls. -/
structure udpHandler where
  timeout : Int
  conns : List (UDPConn × PacketConn)
  trace : List Event
  deriving DecidableEq, Repr

/-- Records one call at the end of the trace. -/
def udpHandler.emit (h : udpHandler) (e : Event) : udpHandler :=
  { h with trace := h.trace ++ [e] }

/-- NewUDPHandler: a handler with the given timeout and an empty map. -/
def NewUDPHandler (timeout : Int) : udpHandler :=
  { timeout := timeout, conns := [], trace := [] }

/-- Connect.  The argument listen is what h.client.ListenUDP(nil) returns. -/
def udpHandler.Connect (h : udpHandler) (listen : Except ExtError PacketConn)
    (conn : UDPConn) (_target : UDPAddr) : Option Error × udpHandler :=
  let h := h.emit .listenUDP
  match listen with
  | .error err => (some (.external err), h)
  | .ok proxyConn =>
    let h := h.emit .lock
    let h := { h with conns := mapSet h.conns conn proxyConn }
    let h := h.emit .unlock
    let h := h.emit (.goHandleDownstreamUDP conn proxyConn)
    (none, h)

/-- ReceiveTo.  The argument now is what time.Now() returns, writeErr the error
result of proxyConn.WriteTo (none for nil). -/
def udpHandler.ReceiveTo (h : udpHandler) (now : Int) (writeErr : Option ExtError)
    (conn : UDPConn) (data : Bytes) (addr : UDPAddr) : Option Error × udpHandler :=
  let h := h.emit .lock
  let found := mapGet h.conns conn
  let h := h.emit .unlock
  match found with
  | none =>
    let h := h.emit (.localAddr conn)
    (some (.doesNotExist conn.localAddr addr), h)
  | some proxyConn =>
    let h := h.emit (.setDeadline proxyConn (now + h.timeout))
    let h := h.emit (.writeTo proxyConn data addr)
    (writeErr.map .external, h)

/-- Close: closes the virtual connection, then under the lock closes the proxy
socket found in the map, if any; the unlock is deferred to the end. -/
def udpHandler.Close (h : udpHandler) (conn : UDPConn) : udpHandler :=
  let h := h.emit (.connClose conn)
  let h := h.emit .lock
  let h := match mapGet h.conns conn with
    | some proxyConn => h.emit (.proxyClose proxyConn)
    | none => h
  h.emit .unlock

/-- Number of Close calls made on the proxy socket p so far. -/
def udpHandler.closeCalls (h : udpHandler) (p : PacketConn) : Nat :=
  h.trace.count (.proxyClose p)

/-- Whether Close has been called on the proxy socket p. -/
def udpHandler.proxyClosed (h : udpHandler) (p : PacketConn) : Bool :=
  decide (Event.proxyClose p ∈ h.trace)

/-- Whether Close has been called on the virtual connection conn. -/
def udpHandler.connClosed (h : udpHandler) (conn : UDPConn) : Bool :=
  decide (Event.connClose conn ∈ h.trace)

/-- Copy made by proxyConn.ReadFrom(buf) of a received datagram into the
buffer: the count n of bytes copied, at most len(buf), and the buffer afterwards. -/
def readInto (buf data : Bytes) : Nat × Bytes :=
  let n := min data.length buf.length
  (n, data.take n ++ buf.drop n)

/-- What the collaborators return during one pass of the for loop: the clock,
proxyConn.ReadFrom (the datagram and the text addr.String() of its source, or
an error) and the error result of conn.WriteFrom. -/
structure IterEnv where
  now : Int
  read : Except ExtError (Bytes × String)
  writeFromErr : Option ExtError

/-- Body of the for loop of handleDownstreamUDP.  The argument resolve is
net.ResolveUDPAddr("udp", ·).  The Boolean is true when the loop goes on to
its next pass and false when the body executes return. -/
def udpHandler.loopBody (h : udpHandler) (resolve : String → Except ExtError UDPAddr)
    (conn : UDPConn) (proxyConn : PacketConn) (buf : Bytes) (env : IterEnv) :
    Bool × Bytes × udpHandler :=
  let h := h.emit (.setDeadline proxyConn (env.now + h.timeout))
  let h := h.emit (.readFrom proxyConn)
  match env.read with
  | .error _ => (false, buf, h)
  | .ok (data, addr) =>
    let (n, buf) := readInto buf data
    let h := h.emit (.resolveUDPAddr addr)
    match resolve addr with
    | .error _ => (false, buf, h)
    | .ok udpAddr =>
      let h := h.emit (.writeFrom conn (buf.take n) udpAddr)
      match env.writeFromErr with
      | some _ => (false, buf, h)
      | none => (true, buf, h)

/-- The for loop, run on the answers of the collaborators pass by pass.  The
Boolean is true when the loop was left by return, false when every answer
given was consumed and the loop waits in its next read. -/
def udpHandler.loop (h : udpHandler) (resolve : String → Except ExtError UDPAddr)
    (conn : UDPConn) (proxyConn : PacketConn) (buf : Bytes) :
    List IterEnv → Bool × Bytes × udpHandler
  | [] => (false, buf, h)
  | env :: envs =>
    match h.loopBody resolve conn proxyConn buf env with
    | (true, buf, h) => udpHandler.loop h resolve conn proxyConn buf envs
    | (false, buf, h) => (true, buf, h)

/-- The deferred function of handleDownstreamUDP: h.Close(conn), then
core.FreeBytes(buf). -/
def udpHandler.deferred (h : udpHandler) (conn : UDPConn) : udpHandler :=
  let h := h.Close conn
  h.emit .freeBytes

/-- The goroutine handleDownstreamUDP: takes a buffer (buf0 is what
core.NewBytes hands out), runs the loop and, when the loop returns, runs the
function it deferred.  The Boolean is true when the function has returned. -/
def udpHandler.handleDownstreamUDP (h : udpHandler)
    (resolve : String → Except ExtError UDPAddr) (conn : UDPConn) (proxyConn : PacketConn)
    (buf0 : Bytes) (envs : List IterEnv) : Bool × udpHandler :=
  let h := h.emit .newBytes
  match h.loop resolve conn proxyConn buf0 envs with
  | (true, _, h) => (true, h.deferred conn)
  | (false, _, h) => (false, h)

/-- A pass of the loop ends the loop: the read fails, the source address does
not parse, or the delivery fails. -/
def IterEnv.fails (resolve : String → Except ExtError UDPAddr) (env : IterEnv) : Bool :=
  match env.read with
  | .error _ => true
  | .ok (_, addr) =>
    match resolve addr with
    | .error _ => true
    | .ok _ => env.writeFromErr.isSome

/-- Position of the first occurrence of e in a trace is before that of e2. -/
def precedes (e e2 : Event) (tr : List Event) : Bool :=
  decide (tr.indexOf e < tr.indexOf e2)

/-- A forwarding goroutine started by Connect: its two arguments, its buffer
once taken, and whether it has returned. -/
structure Task where
  conn : UDPConn
  proxyConn : PacketConn
  buf : Option Bytes
  done : Bool

/-- The handler together with its environment: the next socket identity the
client will hand out and the goroutines started so far. -/
structure System where
  h : udpHandler
  nextSock : Nat
  tasks : List Task

/-- Steps of the system: calls of the packet engine on the handler, with what
the collaborators answer, and steps of the goroutine with index i. -/
inductive Action where
  | connect (conn : UDPConn) (target : UDPAddr) (listenErr : Option ExtError)
  | receiveTo (conn : UDPConn) (data : Bytes) (addr : UDPAddr) (now : Int)
      (writeErr : Option ExtError)
  | close (conn : UDPConn)
  | loopStart (i : Nat) (buf0 : Bytes)
  | loopIter (i : Nat) (env : IterEnv)

/-- The system before any call: NewUDPHandler and no socket handed out. -/
def System.init (timeout : Int) : System :=
  { h := NewUDPHandler timeout, nextSock := 0, tasks := [] }

/-- One step.  A successful ListenUDP hands out a socket never handed out
before; a goroutine step applies only to a started, not yet returned goroutine. -/
def System.step (resolve : String → Except ExtError UDPAddr) (s : System) : Action → System
  | .connect conn target (some err) =>
    { s with h := (s.h.Connect (.error err) conn target).2 }
  | .connect conn target none =>
    { h := (s.h.Connect (.ok s.nextSock) conn target).2
      nextSock := s.nextSock + 1
      tasks := s.tasks ++ [⟨conn, s.nextSock, none, false⟩] }
  | .receiveTo conn data addr now writeErr =>
    { s with h := (s.h.ReceiveTo now writeErr conn data addr).2 }
  | .close conn => { s with h := s.h.Close conn }
  | .loopStart i buf0 =>
    match s.tasks.get? i with
    | some ⟨conn, proxyConn, none, false⟩ =>
      { s with h := s.h.emit .newBytes, tasks := s.tasks.set i ⟨conn, proxyConn, some buf0, false⟩ }
    | _ => s
  | .loopIter i env =>
    match s.tasks.get? i with
    | some ⟨conn, proxyConn, some buf, false⟩ =>
      match s.h.loopBody resolve conn proxyConn buf env with
      | (true, buf, h) => { s with h := h, tasks := s.tasks.set i ⟨conn, proxyConn, some buf, false⟩ }
      | (false, buf, h) =>
        { s with h := h.deferred conn, tasks := s.tasks.set i ⟨conn, proxyConn, some buf, true⟩ }
    | _ => s

/-- The state reached from the initial one by a sequence of steps. -/
def System.run (resolve : String → Except ExtError UDPAddr) (timeout : Int)
    (acts : List Action) : System :=
  acts.foldl (System.step resolve) (System.init timeout)

/-- Calls made by the body of the for loop. -/
def Event.isLoopCall : Event → Bool
  | .setDeadline _ _ => true
  | .readFrom _ => true
  | .resolveUDPAddr _ => true
  | .writeFrom _ _ _ => true
  | _ => false

/-- The calls Close(c) makes on a handler with session table m. -/
def closeCallsOf (m : List (UDPConn × PacketConn)) (c : UDPConn) : List Event :=
  .connClose c :: .lock ::
    ((match mapGet m c with
      | some q => [Event.proxyClose q]
      | none => []) ++ [.unlock])

/-- Invariant of the reachable states: sockets in the table and sockets that
had Close called were handed out by the client; no socket is the entry of two
connections; a socket in the table had Close called only after Close was
called on the virtual connection of its entry. -/
def System.Inv (s : System) : Prop :=
  (∀ c p, mapGet s.h.conns c = some p → p < s.nextSock) ∧
  (∀ c c2 p, mapGet s.h.conns c = some p → mapGet s.h.conns c2 = some p → c = c2) ∧
  (∀ p, Event.proxyClose p ∈ s.h.trace → p < s.nextSock) ∧
  (∀ c p, mapGet s.h.conns c = some p → Event.proxyClose p ∈ s.h.trace →
    Event.connClose c ∈ s.h.trace)

/-! ## Sample values -/

/-- A virtual connection. -/
def connA : UDPConn := ⟨1, ⟨[10, 0, 0, 1], 5000⟩⟩

/-- Another virtual connection. -/
def connB : UDPConn := ⟨2, ⟨[10, 0, 0, 1], 5001⟩⟩

/-- A destination. -/
def dest : UDPAddr := ⟨[8, 8, 8, 8], 53⟩

/-- The handler with timeout 30 after one successful Connect of connA, which
got socket 7 from the client. -/
def hOne : udpHandler := ((NewUDPHandler 30).Connect (.ok 7) connA dest).2

/-- The parser used in the examples: it knows the text of one address. -/
def resolveSample (s : String) : Except ExtError UDPAddr :=
  if s = "8.8.8.8:53" then .ok dest else .error 9

/-- The answer of the proxy in the examples: the four bytes of pong from dest. -/
def envPong : IterEnv :=
  { now := 200, read := .ok ([112, 111, 110, 103], "8.8.8.8:53"), writeFromErr := none }

/-- A read that fails (as when the deadline has passed). -/
def envTimeout : IterEnv :=
  { now := 300, read := .error 3, writeFromErr := none }

end shadowsocks

namespace tun2socks

open shadowsocks (Bytes)

/-- The constant math.MaxUint16. -/
def MaxUint16 : Int := 65535

/-- Output sink for packets (TunWriter), known by its identity. -/
abbrev TunWriter := Nat

/-- Shadowsocks client as far as this function touches it: its identity and the
salt generator set on it, given by the salt it was built from. -/
structure Client where
  id : Nat
  tcpSaltGenerator : Option Bytes
  deriving DecidableEq, Repr

/-- Tunnel returned by outline.NewTunnel, known by its identity. -/
abbrev OutlineTunnel := Nat

/-- Error values of ConnectShadowsocksTunnel: errors.New("Must provide a TunWriter"),
fmt.Errorf("Invalid port number: %v", port),
fmt.Errorf("failed to construct Shadowsocks client: %v", err), and an error
value of outline.NewTunnel passed on unchanged. -/
inductive SetupError where
  | mustProvideTunWriter
  | invalidPort (port : Int)
  | failedToConstruct (err : Nat)
  | external (err : Nat)
  deriving DecidableEq, Repr

/-- Calls ConnectShadowsocksTunnel makes on its collaborators. -/
inductive SetupCall where
  | newClient (host : String) (port : Int) (password : String) (cipher : String)
  | newPrefixSaltGenerator (salt : Bytes)
  | setTCPSaltGenerator (client : Nat)
  | newTunnel (client : Nat) (isUDPEnabled : Bool) (tunWriter : TunWriter)
  deriving DecidableEq, Repr

/-- ConnectShadowsocksTunnel.  The arguments newClient and newTunnel are
client.NewClient and outline.NewTunnel; a nil tunWriter is none.  Returns the
result together with the calls made, in order. -/
def ConnectShadowsocksTunnel
    (newClient : String → Int → String → String → Except Nat Client)
    (newTunnel : Client → Bool → TunWriter → Except Nat OutlineTunnel)
    (tunWriter : Option TunWriter) (host : String) (port : Int) (password cipher : String)
    (saltPrefix : Bytes) (isUDPEnabled : Bool) :
    Except SetupError OutlineTunnel × List SetupCall :=
  match tunWriter with
  | none => (.error .mustProvideTunWriter, [])
  | some tw =>
    if port ≤ 0 ∨ port > MaxUint16 then
      (.error (.invalidPort port), [])
    else
      let calls := [SetupCall.newClient host port password cipher]
      match newClient host port password cipher with
      | .error err => (.error (.failedToConstruct err), calls)
      | .ok ssclient =>
        let calls := calls ++ [.newPrefixSaltGenerator saltPrefix]
        let ssclient := { ssclient with tcpSaltGenerator := some saltPrefix }
        let calls := calls ++ [.setTCPSaltGenerator ssclient.id]
        let calls := calls ++ [.newTunnel ssclient.id isUDPEnabled tw]
        match newTunnel ssclient isUDPEnabled tw with
        | .error err => (.error (.external err), calls)
        | .ok t => (.ok t, calls)

/-- A client constructor for the examples: it accepts one cipher. -/
def newClientSample (_host : String) (port : Int) (_password cipher : String) :
    Except Nat Client :=
  if cipher = "chacha20-ietf-poly1305" then .ok ⟨port.toNat, none⟩ else .error 1

/-- A tunnel constructor for the examples: it always succeeds. -/
def newTunnelSample (c : Client) (_isUDPEnabled : Bool) (_tw : TunWriter) :
    Except Nat OutlineTunnel :=
  .ok c.id

end tun2socks

namespace shadowsocks

/-! ## The map -/

theorem mapGet_filter_ne (m : List (UDPConn × PacketConn)) (c k : UDPConn) (hk : k ≠ c) :
    mapGet (m.filter (fun e => !decide (e.1 = c))) k = mapGet m k := by
  induction m with
  | nil => rfl
  | cons e m ih =>
    obtain ⟨k0, v0⟩ := e
    by_cases h0 : k0 = c
    · subst h0
      have hne : ¬ k0 = k := fun h => hk h.symm
      simp [List.filter_cons, mapGet, hne, ih]
    · by_cases h1 : k0 = k
      · subst h1
        simp [List.filter_cons, mapGet, h0]
      · simp [List.filter_cons, mapGet, h0, h1, ih]

theorem mapGet_mapSet_self (m : List (UDPConn × PacketConn)) (c : UDPConn) (p : PacketConn) :
    mapGet (mapSet m c p) c = some p := by
  simp [mapSet, mapGet]

theorem mapGet_mapSet_ne (m : List (UDPConn × PacketConn)) (c k : UDPConn) (p : PacketConn)
    (hk : k ≠ c) : mapGet (mapSet m c p) k = mapGet m k := by
  have hne : ¬ c = k := fun h => hk h.symm
  simp [mapSet, mapGet, hne, mapGet_filter_ne m c k hk]

/-! ## Close -/

theorem Close_conns (h : udpHandler) (c : UDPConn) : (h.Close c).conns = h.conns := by
  unfold udpHandler.Close
  simp only [udpHandler.emit]
  split <;> rfl

theorem Close_timeout (h : udpHandler) (c : UDPConn) : (h.Close c).timeout = h.timeout := by
  unfold udpHandler.Close
  simp only [udpHandler.emit]
  split <;> rfl

theorem Close_trace_some (h : udpHandler) (c : UDPConn) (p : PacketConn)
    (hp : mapGet h.conns c = some p) :
    (h.Close c).trace = h.trace ++ [.connClose c, .lock, .proxyClose p, .unlock] := by
  simp [udpHandler.Close, udpHandler.emit, hp]

theorem Close_trace_none (h : udpHandler) (c : UDPConn) (hp : mapGet h.conns c = none) :
    (h.Close c).trace = h.trace ++ [.connClose c, .lock, .unlock] := by
  simp [udpHandler.Close, udpHandler.emit, hp]

/-! ## ReceiveTo -/

theorem ReceiveTo_none (h : udpHandler) (now : Int) (writeErr : Option ExtError) (c : UDPConn)
    (data : Bytes) (addr : UDPAddr) (hp : mapGet h.conns c = none) :
    h.ReceiveTo now writeErr c data addr =
      (some (.doesNotExist c.localAddr addr),
        { h with trace := h.trace ++ [.lock, .unlock, .localAddr c] }) := by
  simp [udpHandler.ReceiveTo, udpHandler.emit, hp]

theorem ReceiveTo_some (h : udpHandler) (now : Int) (writeErr : Option ExtError) (c : UDPConn)
    (data : Bytes) (addr : UDPAddr) (p : PacketConn) (hp : mapGet h.conns c = some p) :
    h.ReceiveTo now writeErr c data addr =
      (writeErr.map .external,
        { h with trace := h.trace ++
            [.lock, .unlock, .setDeadline p (now + h.timeout), .writeTo p data addr] }) := by
  simp [udpHandler.ReceiveTo, udpHandler.emit, hp]

/-! ## Claims on Connect, ReceiveTo and Close -/

/-- C1, counterexample.  After a successful Connect of connA (socket 7) and
Close(connA), the map still sends connA to socket 7, and ReceiveTo(connA, ...)
returns nil, not the does-not-exist error, after calling WriteTo on socket 7. -/
theorem C1_close_keeps_entry_counterexample :
    mapGet (hOne.Close connA).conns connA = some 7 ∧
    ((hOne.Close connA).ReceiveTo 100 none connA [1, 2] dest).1 = none ∧
    ((hOne.Close connA).ReceiveTo 100 none connA [1, 2] dest).1
      ≠ some (.doesNotExist connA.localAddr dest) ∧
    Event.writeTo 7 [1, 2] dest
      ∈ ((hOne.Close connA).ReceiveTo 100 none connA [1, 2] dest).2.trace := by
  decide

/-- C1, amended.  Close(c) calls Close on the virtual connection and, under
the lock, Close on the proxy socket of the entry of c when there is one; it
leaves the session table as it was, so the entry is not removed.  A ReceiveTo
for c that follows returns a does-not-exist error exactly when the table had
no entry for c before the Close, and then touches no proxy socket; when the
table had the entry p, the entry is still there, Close has been called on p,
and ReceiveTo sets the deadline of p, calls WriteTo on p and returns the error
of that write. -/
theorem C1_receiveTo_after_close (h : udpHandler) (now : Int) (writeErr : Option ExtError)
    (c : UDPConn) (data : Bytes) (addr : UDPAddr) :
    (h.Close c).conns = h.conns ∧
    ((∃ l a, ((h.Close c).ReceiveTo now writeErr c data addr).1 = some (.doesNotExist l a))
      ↔ mapGet h.conns c = none) ∧
    (mapGet h.conns c = none →
      (h.Close c).trace = h.trace ++ [.connClose c, .lock, .unlock] ∧
      ((h.Close c).ReceiveTo now writeErr c data addr).1
          = some (.doesNotExist c.localAddr addr) ∧
      ((h.Close c).ReceiveTo now writeErr c data addr).2.trace
          = h.trace ++ [.connClose c, .lock, .unlock, .lock, .unlock, .localAddr c]) ∧
    (∀ p, mapGet h.conns c = some p →
      (h.Close c).trace = h.trace ++ [.connClose c, .lock, .proxyClose p, .unlock] ∧
      (h.Close c).proxyClosed p = true ∧
      (h.Close c).closeCalls p = h.closeCalls p + 1 ∧
      mapGet (h.Close c).conns c = some p ∧
      mapGet ((h.Close c).ReceiveTo now writeErr c data addr).2.conns c = some p ∧
      ((h.Close c).ReceiveTo now writeErr c data addr).1 = writeErr.map .external ∧
      ((h.Close c).ReceiveTo now writeErr c data addr).2.trace
          = h.trace ++ [.connClose c, .lock, .proxyClose p, .unlock,
              .lock, .unlock, .setDeadline p (now + h.timeout), .writeTo p data addr]) := by
  refine ⟨Close_conns h c, ?_, ?_, ?_⟩
  · constructor
    · rintro ⟨l, a, hr⟩
      cases hp : mapGet h.conns c with
      | none => rfl
      | some p =>
        have hp2 : mapGet (h.Close c).conns c = some p := by rw [Close_conns]; exact hp
        rw [ReceiveTo_some _ now writeErr c data addr p hp2] at hr
        cases writeErr <;> simp at hr
    · intro hp
      have hp2 : mapGet (h.Close c).conns c = none := by rw [Close_conns]; exact hp
      rw [ReceiveTo_none _ now writeErr c data addr hp2]
      exact ⟨_, _, rfl⟩
  · intro hp
    have hp2 : mapGet (h.Close c).conns c = none := by rw [Close_conns]; exact hp
    rw [ReceiveTo_none _ now writeErr c data addr hp2]
    refine ⟨Close_trace_none h c hp, rfl, ?_⟩
    simp [Close_trace_none h c hp]
  · intro p hp
    have hp2 : mapGet (h.Close c).conns c = some p := by rw [Close_conns]; exact hp
    rw [ReceiveTo_some _ now writeErr c data addr p hp2]
    refine ⟨Close_trace_some h c p hp, ?_, ?_, hp2, hp2, rfl, ?_⟩
    · simp [udpHandler.proxyClosed, Close_trace_some h c p hp]
    · simp [udpHandler.closeCalls, Close_trace_some h c p hp, List.count_append,
        List.count_cons]
    · simp [Close_trace_some h c p hp, Close_timeout]

/-- C1, witness: the amended statement on the handler that has connA ↦ 7. -/
theorem C1_receiveTo_after_close_witness :
    mapGet hOne.conns connA = some 7 ∧
    (hOne.Close connA).trace
      = hOne.trace ++ [.connClose connA, .lock, .proxyClose 7, .unlock] ∧
    (hOne.Close connA).proxyClosed 7 = true ∧
    (hOne.Close connA).closeCalls 7 = hOne.closeCalls 7 + 1 ∧
    mapGet (hOne.Close connA).conns connA = some 7 ∧
    mapGet ((hOne.Close connA).ReceiveTo 100 (some 5) connA [1, 2] dest).2.conns connA = some 7 ∧
    ((hOne.Close connA).ReceiveTo 100 (some 5) connA [1, 2] dest).1
      = (some 5 : Option ExtError).map .external ∧
    ((hOne.Close connA).ReceiveTo 100 (some 5) connA [1, 2] dest).2.trace
      = hOne.trace ++ [.connClose connA, .lock, .proxyClose 7, .unlock,
          .lock, .unlock, .setDeadline 7 (100 + hOne.timeout), .writeTo 7 [1, 2] dest] :=
  ⟨by decide, (C1_receiveTo_after_close hOne 100 (some 5) connA [1, 2] dest).2.2.2 7 (by decide)⟩

/-- C2.  ReceiveTo returns a does-not-exist error exactly when the session
table has no entry for c.  In that case the error names c's local address and
addr, the table is unchanged, and the only calls made are Lock, Unlock and
conn.LocalAddr: no SetDeadline and no WriteTo on any proxy socket. -/
theorem C2_receiveTo_missing (h : udpHandler) (now : Int) (writeErr : Option ExtError)
    (c : UDPConn) (data : Bytes) (addr : UDPAddr) :
    ((∃ l a, (h.ReceiveTo now writeErr c data addr).1 = some (.doesNotExist l a))
      ↔ mapGet h.conns c = none) ∧
    (mapGet h.conns c = none →
      (h.ReceiveTo now writeErr c data addr).1 = some (.doesNotExist c.localAddr addr) ∧
      (h.ReceiveTo now writeErr c data addr).2.conns = h.conns ∧
      (h.ReceiveTo now writeErr c data addr).2.trace
        = h.trace ++ [.lock, .unlock, .localAddr c]) := by
  constructor
  · constructor
    · rintro ⟨l, a, hr⟩
      cases hp : mapGet h.conns c with
      | none => rfl
      | some p =>
        rw [ReceiveTo_some h now writeErr c data addr p hp] at hr
        cases writeErr <;> simp at hr
    · intro hp
      rw [ReceiveTo_none h now writeErr c data addr hp]
      exact ⟨_, _, rfl⟩
  · intro hp
    rw [ReceiveTo_none h now writeErr c data addr hp]
    exact ⟨rfl, rfl, rfl⟩

/-- C2, witness: connB was never connected. -/
theorem C2_receiveTo_missing_witness :
    (hOne.ReceiveTo 100 none connB [120] dest).1
      = some (.doesNotExist connB.localAddr dest) ∧
    (hOne.ReceiveTo 100 none connB [120] dest).2.conns = hOne.conns ∧
    (hOne.ReceiveTo 100 none connB [120] dest).2.trace
      = hOne.trace ++ [.lock, .unlock, .localAddr connB] :=
  (C2_receiveTo_missing hOne 100 none connB [120] dest).2 (by decide)

/-- C3.  When ListenUDP fails with e, Connect returns e, the session table is
the one before the call, and the only call made is ListenUDP: no goroutine
handleDownstreamUDP is started. -/
theorem C3_connect_failure (h : udpHandler) (e : ExtError) (c : UDPConn) (target : UDPAddr) :
    (h.Connect (.error e) c target).1 = some (.external e) ∧
    (h.Connect (.error e) c target).2.conns = h.conns ∧
    (h.Connect (.error e) c target).2.trace = h.trace ++ [.listenUDP] ∧
    (∀ c2 p, (h.Connect (.error e) c target).2.trace.count (.goHandleDownstreamUDP c2 p)
      = h.trace.count (.goHandleDownstreamUDP c2 p)) := by
  refine ⟨rfl, rfl, rfl, ?_⟩
  intro c2 p
  simp [udpHandler.Connect, udpHandler.emit, List.count_append]

/-- C4.  When ListenUDP succeeds with socket p, Connect returns nil, the
table sends c to p, lookups of every other connection are as before, and the
calls made are ListenUDP, Lock, Unlock and one start of handleDownstreamUDP on
(c, p). -/
theorem C4_connect_success (h : udpHandler) (p : PacketConn) (c : UDPConn) (target : UDPAddr) :
    (h.Connect (.ok p) c target).1 = none ∧
    mapGet (h.Connect (.ok p) c target).2.conns c = some p ∧
    (∀ c2, c2 ≠ c → mapGet (h.Connect (.ok p) c target).2.conns c2 = mapGet h.conns c2) ∧
    (h.Connect (.ok p) c target).2.trace
      = h.trace ++ [.listenUDP, .lock, .unlock, .goHandleDownstreamUDP c p] ∧
    (∀ c2 q, (h.Connect (.ok p) c target).2.trace.count (.goHandleDownstreamUDP c2 q)
      = h.trace.count (.goHandleDownstreamUDP c2 q) + (if c2 = c ∧ q = p then 1 else 0)) := by
  refine ⟨rfl, ?_, ?_, ?_, ?_⟩
  · simp [udpHandler.Connect, udpHandler.emit, mapGet_mapSet_self]
  · intro c2 hc
    simp [udpHandler.Connect, udpHandler.emit, mapGet_mapSet_ne _ _ _ _ hc]
  · simp [udpHandler.Connect, udpHandler.emit]
  · intro c2 q
    by_cases hq : c2 = c ∧ q = p
    · obtain ⟨h1, h2⟩ := hq
      subst h1; subst h2
      simp [udpHandler.Connect, udpHandler.emit, List.count_append]
    · have hne : ¬ (Event.goHandleDownstreamUDP c p = Event.goHandleDownstreamUDP c2 q) := by
        intro heq
        injection heq with h1 h2
        exact hq ⟨h1.symm, h2.symm⟩
      simp [udpHandler.Connect, udpHandler.emit, List.count_append, hq, List.count_cons, hne]

/-- C4, witness: a second connection is added next to connA. -/
theorem C4_connect_success_witness :
    mapGet (hOne.Connect (.ok 8) connB dest).2.conns connB = some 8 ∧
    mapGet (hOne.Connect (.ok 8) connB dest).2.conns connA = mapGet hOne.conns connA :=
  ⟨(C4_connect_success hOne 8 connB dest).2.1,
   (C4_connect_success hOne 8 connB dest).2.2.1 connA (by decide)⟩

/-- C5, counterexample.  On the handler that has connA ↦ 7, two calls of
Close(connA) in a row call Close on socket 7 twice, and the second call is not
a no-op: it makes four more calls, one of them Close on socket 7. -/
theorem C5_second_close_counterexample :
    (hOne.Close connA).closeCalls 7 = 1 ∧
    ((hOne.Close connA).Close connA).closeCalls 7 = 2 ∧
    ((hOne.Close connA).Close connA).trace
      = (hOne.Close connA).trace ++ [.connClose connA, .lock, .proxyClose 7, .unlock] := by
  decide

/-- C5, amended.  Close never changes the session table, and a second
Close(c) changes neither the table nor which proxy sockets have had Close
called on them.  Each Close(c) calls Close on the virtual connection c once,
and on no other virtual connection, and calls Close on the proxy socket of the
entry of c once, when there is an entry, and on no other socket.  So two calls
of Close(c) in a row call Close on c twice and, when c has the entry q, on q
twice, the second time on a socket that already had Close called on it. -/
theorem C5_close_twice (h : udpHandler) (c : UDPConn) (p : PacketConn) :
    (h.Close c).conns = h.conns ∧
    ((h.Close c).Close c).conns = (h.Close c).conns ∧
    ((h.Close c).Close c).proxyClosed p = (h.Close c).proxyClosed p ∧
    (h.Close c).closeCalls p
      = h.closeCalls p + (if mapGet h.conns c = some p then 1 else 0) ∧
    ((h.Close c).Close c).closeCalls p
      = h.closeCalls p + (if mapGet h.conns c = some p then 2 else 0) ∧
    (h.Close c).connClosed c = true ∧
    (∀ c2, (h.Close c).trace.count (.connClose c2)
      = h.trace.count (.connClose c2) + (if c2 = c then 1 else 0)) ∧
    (∀ c2, ((h.Close c).Close c).trace.count (.connClose c2)
      = h.trace.count (.connClose c2) + (if c2 = c then 2 else 0)) ∧
    (mapGet h.conns c = none →
      (h.Close c).trace = h.trace ++ [.connClose c, .lock, .unlock] ∧
      ((h.Close c).Close c).trace
        = h.trace ++ [.connClose c, .lock, .unlock, .connClose c, .lock, .unlock]) ∧
    (∀ q, mapGet h.conns c = some q →
      (h.Close c).trace = h.trace ++ [.connClose c, .lock, .proxyClose q, .unlock] ∧
      (h.Close c).proxyClosed q = true ∧
      ((h.Close c).Close c).trace
        = h.trace ++ [.connClose c, .lock, .proxyClose q, .unlock,
            .connClose c, .lock, .proxyClose q, .unlock]) := by
  have hcount : ∀ (g : udpHandler) (c2 : UDPConn), (g.Close c).trace.count (.connClose c2)
      = g.trace.count (.connClose c2) + (if c2 = c then 1 else 0) := by
    intro g c2
    by_cases hc : c2 = c
    · subst hc
      cases hg : mapGet g.conns c2 with
      | none => simp [Close_trace_none g c2 hg, List.count_append, List.count_cons]
      | some q => simp [Close_trace_some g c2 q hg, List.count_append, List.count_cons]
    · have hne : ¬ c = c2 := fun e => hc e.symm
      cases hg : mapGet g.conns c with
      | none => simp [Close_trace_none g c hg, List.count_append, List.count_cons, hc, hne]
      | some q => simp [Close_trace_some g c q hg, List.count_append, List.count_cons, hc, hne]
  refine ⟨Close_conns h c, Close_conns _ c, ?_, ?_, ?_, ?_, hcount h, ?_, ?_, ?_⟩
  · cases hp : mapGet h.conns c with
    | none =>
      have hp2 : mapGet (h.Close c).conns c = none := by rw [Close_conns]; exact hp
      simp [udpHandler.proxyClosed, Close_trace_none _ c hp2]
    | some q =>
      have hp2 : mapGet (h.Close c).conns c = some q := by rw [Close_conns]; exact hp
      simp [udpHandler.proxyClosed, Close_trace_some _ c q hp2, Close_trace_some _ c q hp]
  · cases hp : mapGet h.conns c with
    | none =>
      simp [udpHandler.closeCalls, Close_trace_none _ c hp, List.count_append, List.count_cons]
    | some q =>
      by_cases hq : q = p
      · subst hq
        simp [udpHandler.closeCalls, Close_trace_some _ c q hp, List.count_append,
          List.count_cons]
      · simp [udpHandler.closeCalls, Close_trace_some _ c q hp, List.count_append,
          List.count_cons, hq]
  · cases hp : mapGet h.conns c with
    | none =>
      have hp2 : mapGet (h.Close c).conns c = none := by rw [Close_conns]; exact hp
      simp [udpHandler.closeCalls, Close_trace_none _ c hp, Close_trace_none _ c hp2,
        List.count_append, List.count_cons]
    | some q =>
      have hp2 : mapGet (h.Close c).conns c = some q := by rw [Close_conns]; exact hp
      by_cases hq : q = p
      · subst hq
        simp [udpHandler.closeCalls, Close_trace_some _ c q hp, Close_trace_some _ c q hp2,
          List.count_append, List.count_cons]
      · simp [udpHandler.closeCalls, Close_trace_some _ c q hp, Close_trace_some _ c q hp2,
          List.count_append, List.count_cons, hq]
  · cases hp : mapGet h.conns c with
    | none => simp [udpHandler.connClosed, Close_trace_none _ c hp]
    | some q => simp [udpHandler.connClosed, Close_trace_some _ c q hp]
  · intro c2
    rw [hcount (h.Close c) c2, hcount h c2]
    by_cases hc : c2 = c <;> simp [hc]
  · intro hp
    have hp2 : mapGet (h.Close c).conns c = none := by rw [Close_conns]; exact hp
    refine ⟨Close_trace_none h c hp, ?_⟩
    rw [Close_trace_none _ c hp2, Close_trace_none h c hp]
    simp
  · intro q hp
    have hp2 : mapGet (h.Close c).conns c = some q := by rw [Close_conns]; exact hp
    refine ⟨Close_trace_some h c q hp, ?_, ?_⟩
    · simp [udpHandler.proxyClosed, Close_trace_some h c q hp]
    · rw [Close_trace_some _ c q hp2, Close_trace_some h c q hp]
      simp

/-- C5, witness: two calls of Close(connA) on the handler that has connA ↦ 7. -/
theorem C5_close_twice_witness :
    mapGet hOne.conns connA = some 7 ∧
    (hOne.Close connA).trace
      = hOne.trace ++ [.connClose connA, .lock, .proxyClose 7, .unlock] ∧
    (hOne.Close connA).proxyClosed 7 = true ∧
    ((hOne.Close connA).Close connA).trace
      = hOne.trace ++ [.connClose connA, .lock, .proxyClose 7, .unlock,
          .connClose connA, .lock, .proxyClose 7, .unlock] :=
  ⟨by decide, (C5_close_twice hOne connA 7).2.2.2.2.2.2.2.2.2 7 (by decide)⟩

/-- C8.  When the table has the entry p for c, ReceiveTo calls, after the
lookup under the lock, SetDeadline(now + timeout) on p and then WriteTo(data,
addr) on p, once each and nothing else, and returns the error of that write
(nil when there is none).  The session table is unchanged and Close is not
called on p, whatever the write returns. -/
theorem C8_receiveTo_present (h : udpHandler) (now : Int) (writeErr : Option ExtError)
    (c : UDPConn) (data : Bytes) (addr : UDPAddr) (p : PacketConn)
    (hp : mapGet h.conns c = some p) :
    (h.ReceiveTo now writeErr c data addr).1 = writeErr.map .external ∧
    (h.ReceiveTo now writeErr c data addr).2.trace
      = h.trace ++ [.lock, .unlock, .setDeadline p (now + h.timeout), .writeTo p data addr] ∧
    (h.ReceiveTo now writeErr c data addr).2.conns = h.conns ∧
    (h.ReceiveTo now writeErr c data addr).2.closeCalls p = h.closeCalls p := by
  rw [ReceiveTo_some h now writeErr c data addr p hp]
  refine ⟨rfl, rfl, rfl, ?_⟩
  simp [udpHandler.closeCalls, List.count_append, List.count_cons]

/-- C8, witness: a failing write (error 5) on the entry of connA. -/
theorem C8_receiveTo_present_witness :
    mapGet hOne.conns connA = some 7 ∧
    (hOne.ReceiveTo 100 (some 5) connA [112, 105] dest).1
      = (some 5 : Option ExtError).map .external ∧
    (hOne.ReceiveTo 100 (some 5) connA [112, 105] dest).2.trace
      = hOne.trace ++
        [.lock, .unlock, .setDeadline 7 (100 + hOne.timeout), .writeTo 7 [112, 105] dest] ∧
    (hOne.ReceiveTo 100 (some 5) connA [112, 105] dest).2.conns = hOne.conns ∧
    (hOne.ReceiveTo 100 (some 5) connA [112, 105] dest).2.closeCalls 7 = hOne.closeCalls 7 :=
  ⟨by decide, C8_receiveTo_present hOne 100 (some 5) connA [112, 105] dest 7 (by decide)⟩

/-! ## The forwarding loop -/

theorem Close_eq (h : udpHandler) (c : UDPConn) :
    h.Close c = { h with trace := h.trace ++ closeCallsOf h.conns c } := by
  unfold udpHandler.Close closeCallsOf
  cases hp : mapGet h.conns c <;> simp [udpHandler.emit, hp]

theorem count_eq_zero_of_isLoopCall (evs : List Event) (e : Event)
    (hall : evs.all Event.isLoopCall = true) (he : e.isLoopCall = false) :
    evs.count e = 0 := by
  rw [List.count_eq_zero]
  intro hmem
  rw [List.all_eq_true] at hall
  have := hall e hmem
  rw [he] at this
  exact Bool.noConfusion this

theorem loopBody_spec (h : udpHandler) (resolve : String → Except ExtError UDPAddr)
    (c : UDPConn) (p : PacketConn) (buf : Bytes) (env : IterEnv) :
    ∃ evs buf2, h.loopBody resolve c p buf env
        = (!env.fails resolve, buf2, { h with trace := h.trace ++ evs }) ∧
      evs.all Event.isLoopCall = true ∧ evs.count (.readFrom p) = 1 := by
  unfold udpHandler.loopBody IterEnv.fails
  cases hr : env.read with
  | error e =>
    exact ⟨[.setDeadline p (env.now + h.timeout), .readFrom p], buf,
      by simp [udpHandler.emit], by simp [Event.isLoopCall], by simp [List.count_cons]⟩
  | ok da =>
    obtain ⟨data, a⟩ := da
    cases hu : resolve a with
    | error e =>
      exact ⟨[.setDeadline p (env.now + h.timeout), .readFrom p, .resolveUDPAddr a],
        (readInto buf data).2,
        by simp [udpHandler.emit, hu], by simp [Event.isLoopCall], by simp [List.count_cons]⟩
    | ok u =>
      refine ⟨[.setDeadline p (env.now + h.timeout), .readFrom p, .resolveUDPAddr a,
        .writeFrom c ((readInto buf data).2.take (readInto buf data).1) u],
        (readInto buf data).2, ?_, by simp [Event.isLoopCall], by simp [List.count_cons]⟩
      cases hw : env.writeFromErr <;> simp [udpHandler.emit, hu]

theorem loop_cons (h : udpHandler) (resolve : String → Except ExtError UDPAddr) (c : UDPConn)
    (p : PacketConn) (buf : Bytes) (env : IterEnv) (envs : List IterEnv) :
    h.loop resolve c p buf (env :: envs)
      = match h.loopBody resolve c p buf env with
        | (true, buf, h) => udpHandler.loop h resolve c p buf envs
        | (false, buf, h) => (true, buf, h) := rfl

theorem loop_prefix (resolve : String → Except ExtError UDPAddr) (c : UDPConn) (p : PacketConn)
    (pre : List IterEnv) :
    ∀ (h : udpHandler) (buf : Bytes), (∀ e ∈ pre, e.fails resolve = false) →
      ∃ evs buf2, evs.all Event.isLoopCall = true ∧ evs.count (.readFrom p) = pre.length ∧
        ∀ rest, h.loop resolve c p buf (pre ++ rest)
          = udpHandler.loop { h with trace := h.trace ++ evs } resolve c p buf2 rest := by
  induction pre with
  | nil =>
    intro h buf _
    exact ⟨[], buf, rfl, rfl, fun rest => by simp⟩
  | cons env pre ih =>
    intro h buf hok
    obtain ⟨evs1, buf1, hbody, hall1, hcnt1⟩ := loopBody_spec h resolve c p buf env
    have hf : env.fails resolve = false := hok env (List.mem_cons_self _ _)
    rw [hf] at hbody
    obtain ⟨evs2, buf2, hall2, hcnt2, hrest⟩ :=
      ih { h with trace := h.trace ++ evs1 } buf1
        (fun e he => hok e (List.mem_cons_of_mem _ he))
    refine ⟨evs1 ++ evs2, buf2, ?_, ?_, ?_⟩
    · simp [List.all_append, hall1, hall2]
    · simp [List.count_append, hcnt1, hcnt2, Nat.add_comm]
    · intro rest
      have := hrest rest
      rw [List.cons_append, loop_cons, hbody]
      simp only [Bool.not_false]
      rw [this]
      simp [List.append_assoc]

theorem loop_first_failure (resolve : String → Except ExtError UDPAddr) (c : UDPConn)
    (p : PacketConn) (h : udpHandler) (buf : Bytes) (pre : List IterEnv) (env : IterEnv)
    (hok : ∀ e ∈ pre, e.fails resolve = false) (hbad : env.fails resolve = true) :
    ∃ evs buf2, evs.all Event.isLoopCall = true ∧ evs.count (.readFrom p) = pre.length + 1 ∧
      ∀ rest, h.loop resolve c p buf (pre ++ env :: rest)
        = (true, buf2, { h with trace := h.trace ++ evs }) := by
  obtain ⟨evs1, buf1, hall1, hcnt1, hrest⟩ := loop_prefix resolve c p pre h buf hok
  obtain ⟨evs2, buf2, hbody, hall2, hcnt2⟩ :=
    loopBody_spec { h with trace := h.trace ++ evs1 } resolve c p buf1 env
  rw [hbad] at hbody
  refine ⟨evs1 ++ evs2, buf2, ?_, ?_, ?_⟩
  · simp [List.all_append, hall1, hall2]
  · simp [List.count_append, hcnt1, hcnt2]
  · intro rest
    rw [hrest (env :: rest), loop_cons, hbody]
    simp [List.append_assoc]

theorem loop_no_failure (resolve : String → Except ExtError UDPAddr) (c : UDPConn)
    (p : PacketConn) (h : udpHandler) (buf : Bytes) (pre : List IterEnv)
    (hok : ∀ e ∈ pre, e.fails resolve = false) :
    ∃ evs buf2, evs.all Event.isLoopCall = true ∧ evs.count (.readFrom p) = pre.length ∧
      h.loop resolve c p buf pre = (false, buf2, { h with trace := h.trace ++ evs }) := by
  obtain ⟨evs1, buf1, hall1, hcnt1, hrest⟩ := loop_prefix resolve c p pre h buf hok
  refine ⟨evs1, buf1, hall1, hcnt1, ?_⟩
  have := hrest []
  rw [List.append_nil] at this
  rw [this]
  rfl

theorem readInto_take (buf data : Bytes) :
    (readInto buf data).2.take (readInto buf data).1 = data.take buf.length := by
  unfold readInto
  simp only
  rw [List.take_append_of_le_length (by simp)]
  rw [List.take_take, Nat.min_self]
  by_cases hle : data.length ≤ buf.length
  · rw [Nat.min_eq_left hle, List.take_of_length_le (Nat.le_refl _), List.take_of_length_le hle]
  · rw [Nat.min_eq_right (Nat.le_of_lt (Nat.lt_of_not_le hle))]

/-- C9.  In a pass of the loop whose read succeeds with datagram data (n bytes
copied into the buffer) from a source whose text a parses to u, the calls made
are SetDeadline, ReadFrom, ResolveUDPAddr(a) and one WriteFrom on the virtual
connection, with the first n bytes of the buffer as the read left it, which are
the bytes of the datagram that fit the buffer, and with u as source.  When the
read fails, or when a does not parse, the pass makes no WriteFrom call. -/
theorem C9_delivery (h : udpHandler) (resolve : String → Except ExtError UDPAddr)
    (c : UDPConn) (p : PacketConn) (buf : Bytes) (env : IterEnv) :
    (∀ data a u, env.read = .ok (data, a) → resolve a = .ok u →
      (h.loopBody resolve c p buf env).2.2.trace
        = h.trace ++ [.setDeadline p (env.now + h.timeout), .readFrom p, .resolveUDPAddr a,
            .writeFrom c ((readInto buf data).2.take (readInto buf data).1) u] ∧
      (readInto buf data).2.take (readInto buf data).1 = data.take buf.length ∧
      (readInto buf data).1 = min data.length buf.length) ∧
    (∀ e, env.read = .error e →
      (h.loopBody resolve c p buf env).2.2.trace
        = h.trace ++ [.setDeadline p (env.now + h.timeout), .readFrom p]) ∧
    (∀ data a e, env.read = .ok (data, a) → resolve a = .error e →
      (h.loopBody resolve c p buf env).2.2.trace
        = h.trace ++ [.setDeadline p (env.now + h.timeout), .readFrom p, .resolveUDPAddr a]) := by
  refine ⟨?_, ?_, ?_⟩
  · intro data a u hr hu
    refine ⟨?_, readInto_take buf data, rfl⟩
    unfold udpHandler.loopBody
    cases hw : env.writeFromErr <;> simp [hr, hu, udpHandler.emit]
  · intro e hr
    unfold udpHandler.loopBody
    simp [hr, udpHandler.emit]
  · intro data a e hr hu
    unfold udpHandler.loopBody
    simp [hr, hu, udpHandler.emit]

/-- C9, witness: the proxy answers pong from 8.8.8.8:53 into a buffer of eight
bytes; connA receives exactly the four bytes of pong, tagged with that address. -/
theorem C9_delivery_witness :
    (hOne.loopBody resolveSample connA 7 (List.replicate 8 0) envPong).2.2.trace
      = hOne.trace ++ [.setDeadline 7 (envPong.now + hOne.timeout), .readFrom 7,
          .resolveUDPAddr "8.8.8.8:53",
          .writeFrom connA ((readInto (List.replicate 8 0) [112, 111, 110, 103]).2.take
            (readInto (List.replicate 8 0) [112, 111, 110, 103]).1) dest] ∧
    (readInto (List.replicate 8 0) [112, 111, 110, 103]).2.take
        (readInto (List.replicate 8 0) [112, 111, 110, 103]).1
      = List.take (List.replicate 8 (0 : Fin 256)).length [112, 111, 110, 103] ∧
    (readInto (List.replicate 8 0) [112, 111, 110, 103]).1
      = min [(112 : Fin 256), 111, 110, 103].length (List.replicate 8 (0 : Fin 256)).length :=
  (C9_delivery hOne resolveSample connA 7 (List.replicate 8 0) envPong).1
    [112, 111, 110, 103] "8.8.8.8:53" dest rfl (by simp [resolveSample])

/-- C10, counterexample.  The goroutine of (connA, 7) whose first read fails
returns after that one pass, and its deferred function first calls Close for
connA and only then releases the buffer: FreeBytes is the last call, not one
made before Close. -/
theorem C10_defer_order_counterexample :
    (hOne.handleDownstreamUDP resolveSample connA 7 (List.replicate 8 0) [envTimeout]).1 = true ∧
    (hOne.handleDownstreamUDP resolveSample connA 7 (List.replicate 8 0) [envTimeout]).2.trace
      = hOne.trace ++ [.newBytes, .setDeadline 7 330, .readFrom 7,
          .connClose connA, .lock, .proxyClose 7, .unlock, .freeBytes] ∧
    precedes (.connClose connA) .freeBytes
      (hOne.handleDownstreamUDP resolveSample connA 7 (List.replicate 8 0) [envTimeout]).2.trace
      = true ∧
    precedes .freeBytes (.connClose connA)
      (hOne.handleDownstreamUDP resolveSample connA 7 (List.replicate 8 0) [envTimeout]).2.trace
      = false := by
  decide

/-- C10, amended.  The forwarding loop does not return while its passes
succeed, and returns in the first pass in which the read fails, the source
address does not parse or the delivery fails, whatever would follow.  On
return it has made one read per pass, and its deferred function calls Close
for its connection and then releases its buffer, in that order, each once. -/
theorem C10_loop_termination (h : udpHandler) (resolve : String → Except ExtError UDPAddr)
    (c : UDPConn) (p : PacketConn) (buf0 : Bytes) (pre : List IterEnv) (env : IterEnv)
    (rest : List IterEnv) (hok : ∀ e ∈ pre, e.fails resolve = false)
    (hbad : env.fails resolve = true) :
    (h.handleDownstreamUDP resolve c p buf0 pre).1 = false ∧
    (h.handleDownstreamUDP resolve c p buf0 (pre ++ env :: rest)).1 = true ∧
    h.handleDownstreamUDP resolve c p buf0 (pre ++ env :: rest)
      = h.handleDownstreamUDP resolve c p buf0 (pre ++ [env]) ∧
    (∃ evs, evs.all Event.isLoopCall = true ∧ evs.count (.readFrom p) = pre.length + 1 ∧
      (h.handleDownstreamUDP resolve c p buf0 (pre ++ env :: rest)).2.trace
        = h.trace ++ (.newBytes :: evs ++ closeCallsOf h.conns c ++ [.freeBytes])) ∧
    (h.handleDownstreamUDP resolve c p buf0 (pre ++ env :: rest)).2.trace.count .freeBytes
      = h.trace.count .freeBytes + 1 ∧
    (h.handleDownstreamUDP resolve c p buf0 (pre ++ env :: rest)).2.trace.count (.connClose c)
      = h.trace.count (.connClose c) + 1 := by
  obtain ⟨evs, buf2, hall, hcnt, hloop⟩ :=
    loop_first_failure resolve c p (h.emit .newBytes) buf0 pre env hok hbad
  obtain ⟨evs0, buf3, _, _, hloop0⟩ :=
    loop_no_failure resolve c p (h.emit .newBytes) buf0 pre hok
  have hrun : ∀ rest2, h.handleDownstreamUDP resolve c p buf0 (pre ++ env :: rest2)
      = (true, { h with trace := h.trace ++
          (.newBytes :: evs ++ closeCallsOf h.conns c ++ [.freeBytes]) }) := by
    intro rest2
    simp only [udpHandler.handleDownstreamUDP]
    rw [hloop rest2]
    simp [udpHandler.deferred, Close_eq, udpHandler.emit, List.append_assoc]
  have hfree : (closeCallsOf h.conns c).count .freeBytes = 0 := by
    unfold closeCallsOf
    cases mapGet h.conns c <;> simp [List.count_cons]
  have hclose : (closeCallsOf h.conns c).count (.connClose c) = 1 := by
    unfold closeCallsOf
    cases mapGet h.conns c <;> simp [List.count_cons]
  refine ⟨?_, ?_, ?_, ⟨evs, hall, hcnt, ?_⟩, ?_, ?_⟩
  · simp only [udpHandler.handleDownstreamUDP]
    rw [hloop0]
  · rw [hrun rest]
  · rw [hrun rest, hrun []]
  · rw [hrun rest]
  · rw [hrun rest]
    simp [List.count_append, List.count_cons, hfree,
      count_eq_zero_of_isLoopCall evs .freeBytes hall rfl]
  · rw [hrun rest]
    simp [List.count_append, List.count_cons, hclose,
      count_eq_zero_of_isLoopCall evs (.connClose c) hall rfl]

/-- C10, witness: one delivered answer, then a read that fails. -/
theorem C10_loop_termination_witness :
    (hOne.handleDownstreamUDP resolveSample connA 7 (List.replicate 8 0) [envPong]).1 = false ∧
    (hOne.handleDownstreamUDP resolveSample connA 7 (List.replicate 8 0)
      ([envPong] ++ envTimeout :: [envPong])).1 = true ∧
    (hOne.handleDownstreamUDP resolveSample connA 7 (List.replicate 8 0)
      ([envPong] ++ envTimeout :: [envPong])).2.trace.count .freeBytes
      = hOne.trace.count .freeBytes + 1 :=
  have hw := C10_loop_termination hOne resolveSample connA 7 (List.replicate 8 0)
    [envPong] envTimeout [envPong]
    (by intro e he; simp at he; subst he; simp [IterEnv.fails, envPong, resolveSample])
    (by simp [IterEnv.fails, envTimeout])
  ⟨hw.1, hw.2.1, hw.2.2.2.2.1⟩

/-! ## Reachable states -/

theorem Inv_init (timeout : Int) : (System.init timeout).Inv := by
  refine ⟨?_, ?_, ?_, ?_⟩ <;> simp [System.init, NewUDPHandler, mapGet]

/-- Calls added to the trace that close no proxy socket keep the invariant. -/
theorem Inv_quiet (s : System) (evs : List Event) (tasks : List Task)
    (hq : ∀ p, Event.proxyClose p ∉ evs) (hinv : s.Inv) :
    System.Inv { h := { s.h with trace := s.h.trace ++ evs }, nextSock := s.nextSock,
                 tasks := tasks } := by
  obtain ⟨h1, h2, h3, h4⟩ := hinv
  refine ⟨h1, h2, ?_, ?_⟩
  · intro p hp
    simp only [List.mem_append] at hp
    rcases hp with hp | hp
    · exact h3 p hp
    · exact absurd hp (hq p)
  · intro c p hc hp
    simp only [List.mem_append] at hp ⊢
    rcases hp with hp | hp
    · exact Or.inl (h4 c p hc hp)
    · exact absurd hp (hq p)

theorem Inv_close (s : System) (c : UDPConn) (evs : List Event) (tasks : List Task)
    (hq : ∀ p, Event.proxyClose p ∉ evs) (hinv : s.Inv) :
    System.Inv { h := { s.h with trace := s.h.trace ++ closeCallsOf s.h.conns c ++ evs },
                 nextSock := s.nextSock, tasks := tasks } := by
  obtain ⟨h1, h2, h3, h4⟩ := hinv
  have hmem : ∀ p, Event.proxyClose p ∈ closeCallsOf s.h.conns c → mapGet s.h.conns c = some p := by
    intro p hp
    unfold closeCallsOf at hp
    cases hg : mapGet s.h.conns c with
    | none => simp [hg] at hp
    | some q =>
      simp [hg] at hp
      rw [hp]
  have hcc : Event.connClose c ∈ closeCallsOf s.h.conns c := by
    simp [closeCallsOf]
  refine ⟨h1, h2, ?_, ?_⟩
  · intro p hp
    simp only [List.mem_append] at hp
    rcases hp with (hp | hp) | hp
    · exact h3 p hp
    · exact h1 c p (hmem p hp)
    · exact absurd hp (hq p)
  · intro c2 p hc hp
    simp only [List.mem_append] at hp ⊢
    rcases hp with (hp | hp) | hp
    · exact Or.inl (Or.inl (h4 c2 p hc hp))
    · have := h2 c c2 p (hmem p hp) hc
      subst this
      exact Or.inl (Or.inr hcc)
    · exact absurd hp (hq p)

theorem Inv_connect (s : System) (c : UDPConn) (evs : List Event) (tasks : List Task)
    (hq : ∀ p, Event.proxyClose p ∉ evs) (hinv : s.Inv) :
    System.Inv { h := { s.h with conns := mapSet s.h.conns c s.nextSock,
                                 trace := s.h.trace ++ evs },
                 nextSock := s.nextSock + 1, tasks := tasks } := by
  obtain ⟨h1, h2, h3, h4⟩ := hinv
  have hget : ∀ k q, mapGet (mapSet s.h.conns c s.nextSock) k = some q →
      (k = c ∧ q = s.nextSock) ∨ (k ≠ c ∧ mapGet s.h.conns k = some q) := by
    intro k q hk
    by_cases hkc : k = c
    · subst hkc
      rw [mapGet_mapSet_self] at hk
      exact Or.inl ⟨rfl, (Option.some.inj hk).symm⟩
    · rw [mapGet_mapSet_ne _ _ _ _ hkc] at hk
      exact Or.inr ⟨hkc, hk⟩
  have hcl : ∀ p, Event.proxyClose p ∈ s.h.trace ++ evs → p < s.nextSock := by
    intro p hp
    simp only [List.mem_append] at hp
    rcases hp with hp | hp
    · exact h3 p hp
    · exact absurd hp (hq p)
  refine ⟨?_, ?_, ?_, ?_⟩
  · intro k q hk
    rcases hget k q hk with ⟨_, hq2⟩ | ⟨_, hk2⟩
    · rw [hq2]
      exact Nat.lt_succ_self _
    · exact Nat.lt_succ_of_lt (h1 k q hk2)
  · intro k k2 q hk hk2
    rcases hget k q hk with ⟨e1, e2⟩ | ⟨_, g1⟩ <;> rcases hget k2 q hk2 with ⟨f1, f2⟩ | ⟨_, g2⟩
    · rw [e1, f1]
    · have := h1 k2 q g2
      rw [e2] at this
      exact absurd this (Nat.lt_irrefl _)
    · have := h1 k q g1
      rw [f2] at this
      exact absurd this (Nat.lt_irrefl _)
    · exact h2 k k2 q g1 g2
  · intro p hp
    exact Nat.lt_succ_of_lt (hcl p hp)
  · intro k q hk hp
    rcases hget k q hk with ⟨_, e2⟩ | ⟨_, g1⟩
    · have := hcl q hp
      rw [e2] at this
      exact absurd this (Nat.lt_irrefl _)
    · have hp2 := hp
      simp only [List.mem_append] at hp ⊢
      rcases hp with hp | hp
      · exact Or.inl (h4 k q g1 hp)
      · exact absurd hp (hq q)

theorem Connect_ok_eq (h : udpHandler) (p : PacketConn) (c : UDPConn) (target : UDPAddr) :
    (h.Connect (.ok p) c target).2
      = { h with conns := mapSet h.conns c p,
                 trace := h.trace ++ [.listenUDP, .lock, .unlock, .goHandleDownstreamUDP c p] } := by
  simp [udpHandler.Connect, udpHandler.emit]

theorem deferred_eq (h : udpHandler) (c : UDPConn) :
    h.deferred c = { h with trace := h.trace ++ closeCallsOf h.conns c ++ [.freeBytes] } := by
  simp [udpHandler.deferred, Close_eq, udpHandler.emit]

theorem proxyClose_not_mem_of_isLoopCall (evs : List Event)
    (hall : evs.all Event.isLoopCall = true) (p : PacketConn) : Event.proxyClose p ∉ evs := by
  intro hmem
  rw [List.all_eq_true] at hall
  exact Bool.noConfusion (hall _ hmem)

theorem Inv_step (resolve : String → Except ExtError UDPAddr) (s : System) (a : Action)
    (hinv : s.Inv) : (s.step resolve a).Inv := by
  cases a with
  | connect conn target listenErr =>
    cases listenErr with
    | none =>
      have := Inv_connect s conn
        [.listenUDP, .lock, .unlock, .goHandleDownstreamUDP conn s.nextSock]
        (s.tasks ++ [⟨conn, s.nextSock, none, false⟩]) (by simp) hinv
      simp only [System.step, Connect_ok_eq]
      exact this
    | some err =>
      exact Inv_quiet s [.listenUDP] s.tasks (by simp) hinv
  | receiveTo conn data addr now writeErr =>
    simp only [System.step]
    cases hp : mapGet s.h.conns conn with
    | none =>
      rw [ReceiveTo_none _ _ _ _ _ _ hp]
      exact Inv_quiet s _ s.tasks (by simp) hinv
    | some p =>
      rw [ReceiveTo_some _ _ _ _ _ _ p hp]
      exact Inv_quiet s _ s.tasks (by simp) hinv
  | close conn =>
    have := Inv_close s conn [] s.tasks (by simp) hinv
    simp only [System.step, Close_eq]
    simpa using this
  | loopStart i buf0 =>
    simp only [System.step]
    split
    · exact Inv_quiet s [.newBytes] _ (by simp) hinv
    · exact hinv
  | loopIter i env =>
    simp only [System.step]
    split
    · rename_i conn p buf _
      obtain ⟨evs, buf2, hbody, hall, _⟩ := loopBody_spec s.h resolve conn p buf env
      have hq := proxyClose_not_mem_of_isLoopCall evs hall
      rw [hbody]
      cases hf : env.fails resolve
      · exact Inv_quiet s evs _ hq hinv
      · simp only [Bool.not_true, deferred_eq]
        exact Inv_close
          { h := { s.h with trace := s.h.trace ++ evs }, nextSock := s.nextSock, tasks := s.tasks }
          conn [.freeBytes] _ (by simp) (Inv_quiet s evs s.tasks hq hinv)
    · exact hinv

theorem Inv_foldl (resolve : String → Except ExtError UDPAddr) (acts : List Action) :
    ∀ s : System, s.Inv → (acts.foldl (System.step resolve) s).Inv := by
  induction acts with
  | nil => intro s hs; exact hs
  | cons a acts ih => intro s hs; exact ih _ (Inv_step resolve s a hs)

theorem Inv_run (resolve : String → Except ExtError UDPAddr) (timeout : Int)
    (acts : List Action) : (System.run resolve timeout acts).Inv :=
  Inv_foldl resolve acts _ (Inv_init timeout)

/-- C6, counterexample.  From the empty handler, a successful Connect of connA
followed by Close(connA), or followed by its forwarding goroutine returning
after a failed read, leaves connA in the session table with a proxy socket on
which Close has been called. -/
theorem C6_closed_socket_in_table_counterexample :
    mapGet (System.run resolveSample 30 [.connect connA dest none, .close connA]).h.conns connA
      = some 0 ∧
    (System.run resolveSample 30 [.connect connA dest none, .close connA]).h.proxyClosed 0
      = true ∧
    mapGet (System.run resolveSample 30 [.connect connA dest none,
      .loopStart 0 (List.replicate 8 0), .loopIter 0 envTimeout]).h.conns connA = some 0 ∧
    (System.run resolveSample 30 [.connect connA dest none,
      .loopStart 0 (List.replicate 8 0), .loopIter 0 envTimeout]).h.proxyClosed 0 = true := by
  decide

/-- C6, amended.  In every state reachable from the empty handler by any
sequence of Connect, ReceiveTo, Close and forwarding-loop steps, every entry of
the session table whose virtual connection has not had Close called on it
refers to a proxy socket on which Close has not been called.  (Close closes the
proxy socket of an entry and keeps the entry.) -/
theorem C6_open_entries_live (resolve : String → Except ExtError UDPAddr) (timeout : Int)
    (acts : List Action) (c : UDPConn) (p : PacketConn)
    (hp : mapGet (System.run resolve timeout acts).h.conns c = some p)
    (hc : (System.run resolve timeout acts).h.connClosed c = false) :
    (System.run resolve timeout acts).h.proxyClosed p = false := by
  obtain ⟨_, _, _, h4⟩ := Inv_run resolve timeout acts
  simp only [udpHandler.connClosed, decide_eq_false_iff_not] at hc
  simp only [udpHandler.proxyClosed, decide_eq_false_iff_not]
  exact fun hmem => hc (h4 c p hp hmem)

/-- C6, witness: connA connected, used and answered; connB connected and closed. -/
theorem C6_open_entries_live_witness :
    mapGet (System.run resolveSample 30 [.connect connA dest none, .connect connB dest none,
      .receiveTo connA [112] dest 100 none, .loopStart 0 (List.replicate 8 0),
      .loopIter 0 envPong, .close connB]).h.conns connA = some 0 ∧
    (System.run resolveSample 30 [.connect connA dest none, .connect connB dest none,
      .receiveTo connA [112] dest 100 none, .loopStart 0 (List.replicate 8 0),
      .loopIter 0 envPong, .close connB]).h.proxyClosed 0 = false :=
  ⟨by decide, C6_open_entries_live resolveSample 30 _ connA 0 (by decide) (by decide)⟩

end shadowsocks

namespace tun2socks

/-- C7.  With a nil tunWriter the call is rejected with the TunWriter error,
for every port, before anything is constructed.  With a tunWriter it is
rejected with an invalid-port error exactly when port ≤ 0 or port > 65535, and
then the error names the port and no call has been made; for every port from 1
to 65535 the first call made is client.NewClient with that port. -/
theorem C7_port_validation
    (newClient : String → Int → String → String → Except Nat Client)
    (newTunnel : Client → Bool → TunWriter → Except Nat OutlineTunnel)
    (tw : TunWriter) (host : String) (port : Int) (password cipher : String)
    (saltPrefix : shadowsocks.Bytes) (isUDPEnabled : Bool) :
    ConnectShadowsocksTunnel newClient newTunnel none host port password cipher saltPrefix
        isUDPEnabled = (.error .mustProvideTunWriter, []) ∧
    ((∃ q, (ConnectShadowsocksTunnel newClient newTunnel (some tw) host port password cipher
        saltPrefix isUDPEnabled).1 = .error (.invalidPort q)) ↔ (port ≤ 0 ∨ port > 65535)) ∧
    ((port ≤ 0 ∨ port > 65535) →
      ConnectShadowsocksTunnel newClient newTunnel (some tw) host port password cipher saltPrefix
        isUDPEnabled = (.error (.invalidPort port), [])) ∧
    ((1 ≤ port ∧ port ≤ 65535) →
      (ConnectShadowsocksTunnel newClient newTunnel (some tw) host port password cipher
        saltPrefix isUDPEnabled).2.head? = some (.newClient host port password cipher)) := by
  refine ⟨rfl, ?_, ?_, ?_⟩
  · constructor
    · rintro ⟨q, hq⟩
      by_contra hport
      have hport2 : ¬ (port ≤ 0 ∨ port > MaxUint16) := hport
      simp only [ConnectShadowsocksTunnel, if_neg hport2] at hq
      cases hn : newClient host port password cipher with
      | error e => simp [hn] at hq
      | ok cl =>
        simp only [hn] at hq
        cases ht : newTunnel { cl with tcpSaltGenerator := some saltPrefix } isUDPEnabled tw with
        | error e => simp [ht] at hq
        | ok t => simp [ht] at hq
    · intro hport
      have hport2 : port ≤ 0 ∨ port > MaxUint16 := hport
      exact ⟨port, by simp only [ConnectShadowsocksTunnel, if_pos hport2]⟩
  · intro hport
    have hport2 : port ≤ 0 ∨ port > MaxUint16 := hport
    simp only [ConnectShadowsocksTunnel, if_pos hport2]
  · intro hport
    have hport2 : ¬ (port ≤ 0 ∨ port > MaxUint16) := by
      unfold MaxUint16
      omega
    simp only [ConnectShadowsocksTunnel, if_neg hport2]
    cases hn : newClient host port password cipher with
    | error e => simp
    | ok cl =>
      cases ht : newTunnel { cl with tcpSaltGenerator := some saltPrefix } isUDPEnabled tw <;>
        simp [ht]

/-- C7, witness: port 65536 is rejected before any call, port 65535 reaches
client.NewClient. -/
theorem C7_port_validation_witness :
    ConnectShadowsocksTunnel newClientSample newTunnelSample (some 1) "192.0.2.1" 65536
        "secret" "chacha20-ietf-poly1305" [] true = (.error (.invalidPort 65536), []) ∧
    (ConnectShadowsocksTunnel newClientSample newTunnelSample (some 1) "192.0.2.1" 65535
        "secret" "chacha20-ietf-poly1305" [] true).2.head?
      = some (.newClient "192.0.2.1" 65535 "secret" "chacha20-ietf-poly1305") :=
  ⟨(C7_port_validation newClientSample newTunnelSample 1 "192.0.2.1" 65536
      "secret" "chacha20-ietf-poly1305" [] true).2.2.1 (by decide),
   (C7_port_validation newClientSample newTunnelSample 1 "192.0.2.1" 65535
      "secret" "chacha20-ietf-poly1305" [] true).2.2.2 (by decide)⟩

end tun2socks
